import Mathlib

/-!
Verification of the crosshair-metrics analysis engine
(`logic/analysis/metrics.py` and the diagnostic reasoner in
`tests/analyzeTdm.py`) of the valorant-sens-analyzer repository.

The Python code works on lists of position dictionaries
`{frameNumber, x, y, timestamp}` and derives movement records,
flicks, tracking segments, correction events and summary statistics.
We embed the numeric computations over `ℝ` (the Python code computes
with floats; `np.sqrt` becomes `Real.sqrt`, `np.arctan2` becomes an
`atan2` built from `Real.arctan`).  Integer frame numbers become `ℤ`.
-/

namespace Metrics

/-- Mean of a list of reals, as `np.mean` on a nonempty list; the Python
code only applies it to nonempty lists (it guards the empty case), and we
return 0 on `[]` so the function is total. -/
noncomputable def listMean (l : List ℝ) : ℝ :=
  if l.length = 0 then 0 else l.sum / l.length

/-- Maximum of a list of reals, as `np.max` on a nonempty list; the Python
code only applies it to nonempty lists, and we return 0 on `[]`. -/
noncomputable def listMax : List ℝ → ℝ
  | [] => 0
  | x :: xs => xs.foldl max x

/-- Population standard deviation, as `np.std` (ddof = 0). -/
noncomputable def listStd (l : List ℝ) : ℝ :=
  Real.sqrt (listMean (l.map fun x => (x - listMean l) ^ 2))

/-- `np.arctan2 y x`: the angle of the vector `(x, y)`, in radians,
in the range `(-π, π]` (with `atan2 0 0 = 0`). -/
noncomputable def atan2 (y x : ℝ) : ℝ :=
  if 0 < x then Real.arctan (y / x)
  else if x < 0 then
    (if 0 ≤ y then Real.arctan (y / x) + Real.pi
     else Real.arctan (y / x) - Real.pi)
  else
    (if 0 < y then Real.pi / 2 else if y < 0 then -(Real.pi / 2) else 0)

/-- A tracked crosshair position sample: `{frameNumber, x, y, timestamp}`. -/
structure Position where
  frameNumber : ℤ
  x : ℝ
  y : ℝ
  timestamp : ℝ

/-- A derived movement record between two consecutive position samples,
as built by `CrosshairMetrics._calculateMovements`. -/
structure Movement where
  frameStart : ℤ
  frameEnd : ℤ
  distance : ℝ
  velocity : ℝ
  direction : ℝ
  dx : ℝ
  dy : ℝ
  timeDiff : ℝ

/-- The movement record `_calculateMovements` appends for the consecutive
pair `prev, curr`: Euclidean distance, velocity `distance / timeDiff`
guarded to 0 when `timeDiff ≤ 0`, and direction `np.degrees(np.arctan2 dy dx)`. -/
noncomputable def mkMovement (prev curr : Position) : Movement :=
  let dx := curr.x - prev.x
  let dy := curr.y - prev.y
  let distance := Real.sqrt (dx ^ 2 + dy ^ 2)
  let timeDiff := curr.timestamp - prev.timestamp
  let velocity := if 0 < timeDiff then distance / timeDiff else 0
  let direction := atan2 dy dx * (180 / Real.pi)
  { frameStart := prev.frameNumber
    frameEnd := curr.frameNumber
    distance := distance
    velocity := velocity
    direction := direction
    dx := dx
    dy := dy
    timeDiff := timeDiff }

/-- `CrosshairMetrics._calculateMovements`: one movement per adjacent pair
of position samples, in order. -/
noncomputable def calculateMovements : List Position → List Movement
  | p0 :: p1 :: rest => mkMovement p0 p1 :: calculateMovements (p1 :: rest)
  | _ => []

/-- A flick record as produced by `detectFlicks` (it carries the movement's
direction, unlike the distance-bucketed variant). -/
structure Flick where
  frameStart : ℤ
  frameEnd : ℤ
  distance : ℝ
  velocity : ℝ
  direction : ℝ

/-- The flick dictionary `detectFlicks` appends for a qualifying movement:
its frame range, distance, velocity and direction. -/
def flickOf (m : Movement) : Flick :=
  { frameStart := m.frameStart, frameEnd := m.frameEnd,
    distance := m.distance, velocity := m.velocity,
    direction := m.direction }

/-- `CrosshairMetrics.detectFlicks`: linear scan keeping every movement
with `velocity > velocityThreshold` (strict). -/
noncomputable def detectFlicks (movements : List Movement) (velocityThreshold : ℝ) :
    List Flick :=
  match movements with
  | [] => []
  | m :: rest =>
      (if m.velocity > velocityThreshold then [flickOf m] else []) ++
        detectFlicks rest velocityThreshold

/-- A flick record as produced by `detectFlicksByDistance` (no direction
field in the Python dict). -/
structure FlickD where
  frameStart : ℤ
  frameEnd : ℤ
  distance : ℝ
  velocity : ℝ

/-- Forgetting the `direction` field of a `detectFlicks` record yields the
record shape used by `detectFlicksByDistance`. -/
def dropDirection (f : Flick) : FlickD :=
  { frameStart := f.frameStart, frameEnd := f.frameEnd,
    distance := f.distance, velocity := f.velocity }

/-- The three distance tiers returned by `detectFlicksByDistance`. -/
structure FlicksByDistance where
  small : List FlickD
  medium : List FlickD
  large : List FlickD

/-- The flick dictionary `detectFlicksByDistance` appends for a qualifying
movement (it carries no direction field). -/
def fdOf (m : Movement) : FlickD :=
  { frameStart := m.frameStart, frameEnd := m.frameEnd,
    distance := m.distance, velocity := m.velocity }

/-- `CrosshairMetrics.detectFlicksByDistance`: same velocity filter as
`detectFlicks`, and each qualifying movement is appended to exactly one
tier: `distance < 100` small, else `distance < 300` medium, else large. -/
noncomputable def detectFlicksByDistance (movements : List Movement)
    (velocityThreshold : ℝ) : FlicksByDistance :=
  match movements with
  | [] => ⟨[], [], []⟩
  | m :: rest =>
      let r := detectFlicksByDistance rest velocityThreshold
      if m.velocity > velocityThreshold then
        if m.distance < 100 then ⟨fdOf m :: r.small, r.medium, r.large⟩
        else if m.distance < 300 then ⟨r.small, fdOf m :: r.medium, r.large⟩
        else ⟨r.small, r.medium, fdOf m :: r.large⟩
      else r

/-- `CrosshairMetrics.getAverageVelocity`: 0 on an empty movement list,
else the mean velocity. -/
noncomputable def getAverageVelocity (movements : List Movement) : ℝ :=
  if movements.isEmpty then 0
  else listMean (movements.map fun m => m.velocity)

/-- `CrosshairMetrics.getMaxVelocity`: 0 on an empty movement list,
else the maximum velocity. -/
noncomputable def getMaxVelocity (movements : List Movement) : ℝ :=
  if movements.isEmpty then 0
  else listMax (movements.map fun m => m.velocity)

/-- `CrosshairMetrics.getTotalDistance`: 0 on an empty movement list,
else the sum of movement distances. -/
noncomputable def getTotalDistance (movements : List Movement) : ℝ :=
  if movements.isEmpty then 0
  else (movements.map fun m => m.distance).sum

/-- Absolute consecutive velocity differences, as the Python list
comprehension in `getSmoothness`. -/
noncomputable def velocityChanges : List ℝ → List ℝ
  | v0 :: v1 :: rest => |v1 - v0| :: velocityChanges (v1 :: rest)
  | _ => []

/-- `CrosshairMetrics.getSmoothness`: 0 when fewer than 2 movements,
else the standard deviation of consecutive velocity changes. -/
noncomputable def getSmoothness (movements : List Movement) : ℝ :=
  if movements.length < 2 then 0
  else listStd (velocityChanges (movements.map fun m => m.velocity))

/-- The statistics dictionary returned by `getFlickStats`. -/
structure FlickStats where
  count : ℕ
  averageDistance : ℝ
  averageVelocity : ℝ
  maxDistance : ℝ
  maxVelocity : ℝ

/-- The FIRST (shadowed) definition of `CrosshairMetrics.getFlickStats` in
the class body (metrics.py lines 398-425): zero-filled record when no flick
qualifies, else count plus mean/max of flick distances and velocities. -/
noncomputable def getFlickStatsShadowed (movements : List Movement)
    (velocityThreshold : ℝ) : FlickStats :=
  let flicks := detectFlicks movements velocityThreshold
  if flicks.isEmpty then
    { count := 0, averageDistance := 0, averageVelocity := 0,
      maxDistance := 0, maxVelocity := 0 }
  else
    let distances := flicks.map fun f => f.distance
    let velocities := flicks.map fun f => f.velocity
    { count := flicks.length
      averageDistance := listMean distances
      averageVelocity := listMean velocities
      maxDistance := listMax distances
      maxVelocity := listMax velocities }

/-- The SECOND (effective) definition of `CrosshairMetrics.getFlickStats`
(metrics.py lines 427-454), the one Python actually binds: zero-filled
record when no flick qualifies, else count plus mean/max of flick
distances and velocities. -/
noncomputable def getFlickStats (movements : List Movement)
    (velocityThreshold : ℝ) : FlickStats :=
  let flicks := detectFlicks movements velocityThreshold
  if flicks.isEmpty then
    { count := 0, averageDistance := 0, averageVelocity := 0,
      maxDistance := 0, maxVelocity := 0 }
  else
    let distances := flicks.map fun f => f.distance
    let velocities := flicks.map fun f => f.velocity
    { count := flicks.length
      averageDistance := listMean distances
      averageVelocity := listMean velocities
      maxDistance := listMax distances
      maxVelocity := listMax velocities }

/-- A tracking segment record as built by `getTrackingSegments`. -/
structure TrackingSegment where
  startFrame : ℤ
  endFrame : ℤ
  duration : ℕ
  distance : ℝ
  avgVelocity : ℝ

/-- The segment record emitted for a run `seg` of consecutive tracking
movements (the Python code collects indices of consecutive movements;
we collect the movements themselves). -/
noncomputable def mkSegment (seg : List Movement) : TrackingSegment :=
  { startFrame := (seg.head?.map fun m => m.frameStart).getD 0
    endFrame := (seg.getLast?.map fun m => m.frameEnd).getD 0
    duration := seg.length
    distance := (seg.map fun m => m.distance).sum
    avgVelocity := listMean (seg.map fun m => m.velocity) }

/-- The loop of `getTrackingSegments`: `cur` is the running candidate run;
a movement with `velocity ≤ threshold` and `distance > 5` extends it, any
other movement closes it (emitting it only when it has ≥ 3 members), and
the final run is flushed by the same ≥ 3 rule. -/
noncomputable def trackingLoop (velocityThreshold : ℝ) :
    List Movement → List Movement → List TrackingSegment
  | cur, [] => if 3 ≤ cur.length then [mkSegment cur] else []
  | cur, m :: rest =>
      if m.velocity ≤ velocityThreshold ∧ m.distance > 5 then
        trackingLoop velocityThreshold (cur ++ [m]) rest
      else
        (if 3 ≤ cur.length then [mkSegment cur] else []) ++
          trackingLoop velocityThreshold [] rest

/-- `CrosshairMetrics.getTrackingSegments` (default threshold 500). -/
noncomputable def getTrackingSegments (movements : List Movement)
    (velocityThreshold : ℝ) : List TrackingSegment :=
  trackingLoop velocityThreshold [] movements

/-- The summary dictionary returned by `getSummary`. -/
structure Summary where
  totalFrames : ℕ
  totalDistance : ℝ
  averageVelocity : ℝ
  maxVelocity : ℝ
  smoothness : ℝ
  flicks : FlickStats
  trackingSegmentCount : ℕ
  totalTrackingDistance : ℝ

/-- `CrosshairMetrics.getSummary`: flick stats at threshold 2000, tracking
segments at the default threshold 500, and the roll-up statistics over
the derived movements. -/
noncomputable def getSummary (positions : List Position) : Summary :=
  let movements := calculateMovements positions
  let flickStats := getFlickStats movements 2000
  let trackingSegments := getTrackingSegments movements 500
  { totalFrames := positions.length
    totalDistance := getTotalDistance movements
    averageVelocity := getAverageVelocity movements
    maxVelocity := getMaxVelocity movements
    smoothness := getSmoothness movements
    flicks := flickStats
    trackingSegmentCount := trackingSegments.length
    totalTrackingDistance :=
      if trackingSegments.isEmpty then 0
      else (trackingSegments.map fun s => s.distance).sum }

/-- The correction-metrics dictionary returned by `analyzeFlickCorrections`. -/
structure StabilityRecord where
  correctionDistance : ℝ
  correctionCount : ℕ
  stabilizationTime : ℝ

/-- Step distance between two consecutive position samples, recomputed
inside the look-ahead window of `analyzeFlickCorrections`. -/
noncomputable def stepDistance (prev curr : Position) : ℝ :=
  Real.sqrt ((curr.x - prev.x) ^ 2 + (curr.y - prev.y) ^ 2)

/-- The guard-and-slice prefix of `analyzeFlickCorrections`: find the first
position with `frameNumber == flickFrame`; if there is none, or
`flickIndex + lookAheadFrames >= len(positions)`, there is no window;
otherwise the window is `positions[flickIndex : flickIndex+lookAheadFrames+1]`. -/
def windowOf (positions : List Position) (flickFrame : ℤ)
    (lookAheadFrames : ℕ) : Option (List Position) :=
  match positions.findIdx? (fun p => p.frameNumber = flickFrame) with
  | none => none
  | some flickIndex =>
      if positions.length ≤ flickIndex + lookAheadFrames then none
      else some ((positions.drop flickIndex).take (lookAheadFrames + 1))

/-- Sum of step distances strictly greater than 2 over the window's
adjacent pairs (first loop of `analyzeFlickCorrections`). -/
noncomputable def correctionDistanceOf : List Position → ℝ
  | prev :: curr :: rest =>
      (if stepDistance prev curr > 2 then stepDistance prev curr else 0) +
        correctionDistanceOf (curr :: rest)
  | _ => 0

/-- Count of step distances strictly greater than 2 over the window's
adjacent pairs (first loop of `analyzeFlickCorrections`). -/
noncomputable def correctionCountOf : List Position → ℕ
  | prev :: curr :: rest =>
      (if stepDistance prev curr > 2 then 1 else 0) +
        correctionCountOf (curr :: rest)
  | _ => 0

/-- The second loop of `analyzeFlickCorrections`, relative to the window
start `start`: the timestamp offset `curr.timestamp - start.timestamp` of
the first step whose distance is < 2, if any. -/
noncomputable def firstStabilizationFrom (start : Position) :
    List Position → Option ℝ
  | prev :: curr :: rest =>
      if stepDistance prev curr < 2 then some (curr.timestamp - start.timestamp)
      else firstStabilizationFrom start (curr :: rest)
  | _ => none

/-- The timestamp offset, from the window's first sample, of the first
step with distance < 2 (the value the second loop of
`analyzeFlickCorrections` leaves in `stabilizationTime`). -/
noncomputable def firstStabilization (window : List Position) : Option ℝ :=
  match window with
  | [] => none
  | start :: _ => firstStabilizationFrom start window

/-- The window's total elapsed time, `postFlickPositions[-1].timestamp -
postFlickPositions[0].timestamp`. -/
def totalElapsed (window : List Position) : ℝ :=
  ((window.getLast?.map fun p => p.timestamp).getD 0) -
    ((window.head?.map fun p => p.timestamp).getD 0)

/-- The record `analyzeFlickCorrections` returns for a window.  The Python
return uses the truthiness test `stabilizationTime if stabilizationTime
else ...`, so a found offset of exactly 0 (like `None`) falls back to the
window's total elapsed time. -/
noncomputable def stabilityRecord (window : List Position) : StabilityRecord :=
  { correctionDistance := correctionDistanceOf window
    correctionCount := correctionCountOf window
    stabilizationTime :=
      match firstStabilization window with
      | some t => if t = 0 then totalElapsed window else t
      | none => totalElapsed window }

/-- `CrosshairMetrics.analyzeFlickCorrections`: `None` when the flick frame
is absent or the look-ahead window would run past the data, else the
stability record over the window. -/
noncomputable def analyzeFlickCorrections (positions : List Position)
    (flickFrame : ℤ) (lookAheadFrames : ℕ) : Option StabilityRecord :=
  (windowOf positions flickFrame lookAheadFrames).map stabilityRecord

/-- A reversal-correction event as built in `analyzeTdmGameplay`. -/
structure Correction where
  frame : ℤ
  correctionDistance : ℝ

/-- The qualifying condition of the reversal detector in
`analyzeTdmGameplay`: the prior movement's velocity exceeds 1500 and the
absolute difference of the two `np.arctan2` direction values (radians)
exceeds π/2.  Note the difference is NOT wrapped modulo 2π. -/
noncomputable def correctionCond (prev curr : Movement) : Prop :=
  prev.velocity > 1500 ∧
    |atan2 prev.dy prev.dx - atan2 curr.dy curr.dx| > Real.pi / 2

noncomputable instance (prev curr : Movement) :
    Decidable (correctionCond prev curr) := Classical.propDecidable _

/-- The reversal-detection loop of `analyzeTdmGameplay` (lines 61-77):
scan consecutive movement pairs and emit `{frame, correctionDistance}`
for each qualifying pair. -/
noncomputable def detectCorrections : List Movement → List Correction
  | prev :: curr :: rest =>
      (if correctionCond prev curr then
        [{ frame := curr.frameStart, correctionDistance := curr.distance }]
       else []) ++ detectCorrections (curr :: rest)
  | _ => []

/-- The proper circular angular difference between two direction angles:
the claim's "angular difference of more than 90 degrees" reads the two
`atan2` values as points on the circle, so the distance is
`min |a - b| (2π - |a - b|)` (always ≤ π). -/
noncomputable def angularDifference (a b : ℝ) : ℝ :=
  min |a - b| (2 * Real.pi - |a - b|)

/-- The reversal condition as the claim states it: prior velocity > 1500
and the circular angular difference of the two `atan2` directions
exceeds π/2. -/
noncomputable def claimCorrectionCond (prev curr : Movement) : Prop :=
  prev.velocity > 1500 ∧
    angularDifference (atan2 prev.dy prev.dx) (atan2 curr.dy curr.dx) >
      Real.pi / 2

/-- The diagnostics dictionary produced by `analyzeTdmGameplay` and
consumed by `provideDiagnostics` (only the fields the recommendation
logic reads; counts are real-valued, as the comparisons multiply them
by fractional factors). -/
structure Diagnostics where
  totalDistance : ℝ
  avgVelocity : ℝ
  maxVelocity : ℝ
  smoothness : ℝ
  flickCount : ℝ
  smallFlickCount : ℝ
  mediumFlickCount : ℝ
  largeFlickCount : ℝ
  avgFlickDistance : ℝ
  microAdjustmentCount : ℝ
  correctionCount : ℝ
  velocityMedian : ℝ
  velocity95th : ℝ

/-- The directional verdict printed by `provideDiagnostics`. -/
inductive Direction where
  | tooLow
  | tooHigh
  | reasonable
deriving DecidableEq

/-- Truth value as a score contribution, as Python `sum([...])` over bools. -/
def scoreOf (b : Prop) [Decidable b] : ℕ := if b then 1 else 0

/-- The recommendation section of `provideDiagnostics` (analyzeTdm.py
lines 184-241), modelled with Python local-variable semantics: on the
branch `highSmoothness and highMaxVelocity` only `tooHighScore` is
assigned, so the later `if tooLowScore >= 2` reads an unassigned local
and Python raises `UnboundLocalError`; we model that path as
`Except.error`.  On the other branches every variable read has been
assigned and the decision is `tooLowScore ≥ 2 → too-low`, else
`tooHighScore ≥ 2 → too-high`, else reasonable. -/
noncomputable def provideDiagnosticsDecision (d : Diagnostics) :
    Except String Direction :=
  let lowMaxVelocity := d.maxVelocity < 8000
  let lowAvgVelocity := d.avgVelocity < 1000
  let noLargeFlicks := d.largeFlickCount = 0
  let lotsOfSmallFlicks := d.smallFlickCount > d.flickCount * 0.6
  let highCorrections := d.correctionCount > d.flickCount * 0.6
  let highMicroAdjustments := d.microAdjustmentCount > d.flickCount * 2
  let highMaxVelocity := d.maxVelocity > 15000
  let highSmoothness := d.smoothness > 1000
  if highSmoothness ∧ lowMaxVelocity then
    -- tooLowScore = 3; the decision takes the too-low branch before ever
    -- reading the (unassigned) tooHighScore.
    Except.ok Direction.tooLow
  else if highSmoothness ∧ highMaxVelocity then
    -- only tooHighScore = 3 is assigned; `if tooLowScore >= 2` then reads
    -- the unassigned local tooLowScore.
    Except.error "UnboundLocalError: local variable tooLowScore referenced before assignment"
  else
    let tooLowScore := scoreOf lowMaxVelocity + scoreOf lowAvgVelocity +
      scoreOf noLargeFlicks + scoreOf lotsOfSmallFlicks
    let tooHighScore := scoreOf (highCorrections ∧ highMaxVelocity) +
      scoreOf (highMicroAdjustments ∧ highMaxVelocity)
    if 2 ≤ tooLowScore then Except.ok Direction.tooLow
    else if 2 ≤ tooHighScore then Except.ok Direction.tooHigh
    else Except.ok Direction.reasonable

/-! ## Concrete inputs used by counterexamples and witnesses -/

/-- Concrete movement used to witness the flick-monotonicity theorem. -/
noncomputable def movC : Movement :=
  { frameStart := 0, frameEnd := 1, distance := 30, velocity := 3000,
    direction := 0, dx := 30, dy := 0, timeDiff := 1/100 }

/-- Concrete flick record that `detectFlicks [movC]` produces. -/
noncomputable def flickC : Flick :=
  { frameStart := 0, frameEnd := 1, distance := 30, velocity := 3000,
    direction := 0 }

/-- Concrete positions used to witness the velocity-safety theorem. -/
noncomputable def posA : Position := { frameNumber := 0, x := 0, y := 0, timestamp := 0 }

/-- Second concrete position for the velocity-safety witness. -/
noncomputable def posB : Position := { frameNumber := 1, x := 3, y := 4, timestamp := 1 }

/-- The C1 scenario: 10 positions moving steadily 5px apart (along x)
every 0.02s, i.e. constant velocity 250 px/s. -/
noncomputable def c1Positions : List Position :=
  [⟨0, 0, 0, 0⟩, ⟨1, 5, 0, 0.02⟩, ⟨2, 10, 0, 0.04⟩, ⟨3, 15, 0, 0.06⟩,
   ⟨4, 20, 0, 0.08⟩, ⟨5, 25, 0, 0.1⟩, ⟨6, 30, 0, 0.12⟩, ⟨7, 35, 0, 0.14⟩,
   ⟨8, 40, 0, 0.16⟩, ⟨9, 45, 0, 0.18⟩]

/-- The C3 counterexample positions: the sample after the flick frame
repeats the same point at the same timestamp, so the first step has
distance 0 < 2 at timestamp offset 0. -/
noncomputable def c3Positions : List Position :=
  [⟨0, 0, 0, 5⟩, ⟨1, 0, 0, 5⟩, ⟨2, 100, 0, 6⟩]

/-- A concrete diagnostics record with high smoothness (2000 > 1000) and
high max velocity (20000 > 15000) — the combined high-smoothness +
high-velocity signal. -/
noncomputable def c2Diagnostics : Diagnostics :=
  { totalDistance := 100000, avgVelocity := 1200, maxVelocity := 20000,
    smoothness := 2000, flickCount := 10, smallFlickCount := 2,
    mediumFlickCount := 5, largeFlickCount := 3, avgFlickDistance := 200,
    microAdjustmentCount := 5, correctionCount := 3, velocityMedian := 800,
    velocity95th := 9000 }

/-- First movement of the C4 counterexample: fast (velocity 2000),
direction left-and-slightly-up (`dx = -10, dy = 1`). -/
noncomputable def m4a : Movement :=
  { frameStart := 0, frameEnd := 1, distance := 10, velocity := 2000,
    direction := 0, dx := -10, dy := 1, timeDiff := 1 / 200 }

/-- Second movement of the C4 counterexample: direction
left-and-slightly-down (`dx = -10, dy = -1`), only ≈ 11.4° away from the
first movement's direction on the circle. -/
noncomputable def m4b : Movement :=
  { frameStart := 1, frameEnd := 2, distance := 7, velocity := 100,
    direction := 0, dx := -10, dy := -1, timeDiff := 1 / 200 }

/-! ## Helper lemmas -/

/-- Every derived movement comes from some adjacent pair of positions. -/
theorem mem_calculateMovements {pos : List Position} {m : Movement}
    (hm : m ∈ calculateMovements pos) : ∃ p q, m = mkMovement p q := by
  induction pos with
  | nil => simp [calculateMovements] at hm
  | cons p rest ih =>
      cases rest with
      | nil => simp [calculateMovements] at hm
      | cons q rest' =>
          rw [calculateMovements] at hm
          rcases List.mem_cons.1 hm with rfl | hm'
          · exact ⟨p, q, rfl⟩
          · exact ih hm'

/-- Membership in `detectFlicks`: exactly the records of movements whose
velocity strictly exceeds the threshold. -/
theorem mem_detectFlicks {movements : List Movement} {thr : ℝ} {f : Flick} :
    f ∈ detectFlicks movements thr ↔
      ∃ m ∈ movements, m.velocity > thr ∧ f = flickOf m := by
  induction movements with
  | nil => simp [detectFlicks]
  | cons m rest ih =>
      rw [detectFlicks]
      by_cases hv : m.velocity > thr
      · simp only [if_pos hv, List.singleton_append, List.mem_cons, ih,
          List.mem_cons, exists_eq_or_imp]
        constructor
        · rintro (rfl | h)
          · exact Or.inl ⟨hv, rfl⟩
          · exact Or.inr h
        · rintro (⟨_, rfl⟩ | h)
          · exact Or.inl rfl
          · exact Or.inr h
      · simp only [if_neg hv, List.nil_append, ih, List.mem_cons, exists_eq_or_imp]
        constructor
        · exact fun h => Or.inr h
        · rintro (⟨hv', _⟩ | h)
          · exact absurd hv' hv
          · exact h

/-- Membership in the small tier of `detectFlicksByDistance`. -/
theorem mem_small {movements : List Movement} {thr : ℝ} {f : FlickD} :
    f ∈ (detectFlicksByDistance movements thr).small ↔
      ∃ m ∈ movements, m.velocity > thr ∧ m.distance < 100 ∧ f = fdOf m := by
  induction movements with
  | nil => simp [detectFlicksByDistance]
  | cons m rest ih =>
      rw [detectFlicksByDistance]
      by_cases hv : m.velocity > thr
      · by_cases h1 : m.distance < 100
        · simp only [if_pos hv, if_pos h1, List.mem_cons, ih,
            List.mem_cons, exists_eq_or_imp]
          tauto
        · by_cases h2 : m.distance < 300
          · simp only [if_pos hv, if_neg h1, if_pos h2, ih,
              List.mem_cons, exists_eq_or_imp]
            tauto
          · simp only [if_pos hv, if_neg h1, if_neg h2, ih,
              List.mem_cons, exists_eq_or_imp]
            tauto
      · simp only [if_neg hv, ih, List.mem_cons, exists_eq_or_imp]
        tauto

/-- Membership in the medium tier of `detectFlicksByDistance`. -/
theorem mem_medium {movements : List Movement} {thr : ℝ} {f : FlickD} :
    f ∈ (detectFlicksByDistance movements thr).medium ↔
      ∃ m ∈ movements, m.velocity > thr ∧ ¬m.distance < 100 ∧
        m.distance < 300 ∧ f = fdOf m := by
  induction movements with
  | nil => simp [detectFlicksByDistance]
  | cons m rest ih =>
      rw [detectFlicksByDistance]
      by_cases hv : m.velocity > thr
      · by_cases h1 : m.distance < 100
        · simp only [if_pos hv, if_pos h1, ih, List.mem_cons, exists_eq_or_imp]
          tauto
        · by_cases h2 : m.distance < 300
          · simp only [if_pos hv, if_neg h1, if_pos h2, List.mem_cons, ih,
              List.mem_cons, exists_eq_or_imp]
            tauto
          · simp only [if_pos hv, if_neg h1, if_neg h2, ih,
              List.mem_cons, exists_eq_or_imp]
            tauto
      · simp only [if_neg hv, ih, List.mem_cons, exists_eq_or_imp]
        tauto

/-- Membership in the large tier of `detectFlicksByDistance`. -/
theorem mem_large {movements : List Movement} {thr : ℝ} {f : FlickD} :
    f ∈ (detectFlicksByDistance movements thr).large ↔
      ∃ m ∈ movements, m.velocity > thr ∧ ¬m.distance < 100 ∧
        ¬m.distance < 300 ∧ f = fdOf m := by
  induction movements with
  | nil => simp [detectFlicksByDistance]
  | cons m rest ih =>
      rw [detectFlicksByDistance]
      by_cases hv : m.velocity > thr
      · by_cases h1 : m.distance < 100
        · simp only [if_pos hv, if_pos h1, ih, List.mem_cons, exists_eq_or_imp]
          tauto
        · by_cases h2 : m.distance < 300
          · simp only [if_pos hv, if_neg h1, if_pos h2, ih,
              List.mem_cons, exists_eq_or_imp]
            tauto
          · simp only [if_pos hv, if_neg h1, if_neg h2, List.mem_cons, ih,
              List.mem_cons, exists_eq_or_imp]
            tauto
      · simp only [if_neg hv, ih, List.mem_cons, exists_eq_or_imp]
        tauto

end Metrics

open Metrics

/-! ## Claims -/

/-- C5: each flick returned by `detectFlicksByDistance` lies in exactly one
tier, determined by the half-open distance intervals `[0,100)`, `[100,300)`,
`[300,∞)` (so distance exactly 100 is medium and exactly 300 is large), and
the three tiers together are exactly the flicks `detectFlicks` returns for
the same threshold (up to the `direction` field the bucketed records do not
carry, forgotten by `dropDirection`).  Each tier membership is equivalent
to "unbucketed flick whose distance is in the tier's interval", which
makes the tiers pairwise disjoint and their union the unbucketed set. -/
theorem flicksByDistance_partition (movements : List Movement) (thr : ℝ)
    (f : FlickD) :
    (f ∈ (detectFlicksByDistance movements thr).small ↔
      f ∈ (detectFlicks movements thr).map dropDirection ∧
        f.distance < 100) ∧
    (f ∈ (detectFlicksByDistance movements thr).medium ↔
      f ∈ (detectFlicks movements thr).map dropDirection ∧
        100 ≤ f.distance ∧ f.distance < 300) ∧
    (f ∈ (detectFlicksByDistance movements thr).large ↔
      f ∈ (detectFlicks movements thr).map dropDirection ∧
        300 ≤ f.distance) := by
  have hmap : ∀ g : FlickD,
      g ∈ (detectFlicks movements thr).map dropDirection ↔
        ∃ m ∈ movements, m.velocity > thr ∧ g = fdOf m := by
    intro g
    simp only [List.mem_map]
    constructor
    · rintro ⟨fl, hfl, rfl⟩
      obtain ⟨m, hm, hv, rfl⟩ := mem_detectFlicks.1 hfl
      exact ⟨m, hm, hv, rfl⟩
    · rintro ⟨m, hm, hv, rfl⟩
      exact ⟨flickOf m, mem_detectFlicks.2 ⟨m, hm, hv, rfl⟩, rfl⟩
  refine ⟨?_, ?_, ?_⟩
  · rw [mem_small, hmap]
    constructor
    · rintro ⟨m, hm, hv, hd, rfl⟩
      exact ⟨⟨m, hm, hv, rfl⟩, hd⟩
    · rintro ⟨⟨m, hm, hv, rfl⟩, hd⟩
      exact ⟨m, hm, hv, hd, rfl⟩
  · rw [mem_medium, hmap]
    constructor
    · rintro ⟨m, hm, hv, hd1, hd2, rfl⟩
      exact ⟨⟨m, hm, hv, rfl⟩, not_lt.1 hd1, hd2⟩
    · rintro ⟨⟨m, hm, hv, rfl⟩, hd1, hd2⟩
      exact ⟨m, hm, hv, not_lt.2 hd1, hd2, rfl⟩
  · rw [mem_large, hmap]
    constructor
    · rintro ⟨m, hm, hv, hd1, hd2, rfl⟩
      exact ⟨⟨m, hm, hv, rfl⟩, not_lt.1 hd2⟩
    · rintro ⟨⟨m, hm, hv, rfl⟩, hd⟩
      simp only [fdOf] at hd
      exact ⟨m, hm, hv, not_lt.2 (by linarith), not_lt.2 hd, rfl⟩

/-- C7: `analyzeFlickCorrections` returns `None` exactly when no position
sample carries the flick frame number, or fewer than `lookAheadFrames`
samples remain after the (first) sample that does; otherwise it returns a
stability record.  The model is a total function, so no exception is
possible on any input. -/
theorem analyzeFlickCorrections_none_iff (positions : List Position)
    (flickFrame : ℤ) (lookAheadFrames : ℕ) :
    analyzeFlickCorrections positions flickFrame lookAheadFrames = none ↔
      (∀ p ∈ positions, p.frameNumber ≠ flickFrame) ∨
      ∃ i, positions.findIdx? (fun p => p.frameNumber = flickFrame) = some i ∧
        positions.length - (i + 1) < lookAheadFrames := by
  rw [analyzeFlickCorrections, windowOf]
  cases hfind : positions.findIdx? (fun p => p.frameNumber = flickFrame) with
  | none =>
      simp only [Option.map_none', true_iff]
      refine Or.inl ?_
      intro p hp
      have := List.findIdx?_eq_none_iff.1 hfind p hp
      simpa using this
  | some i =>
      have hi : i < positions.length :=
        (List.findIdx?_eq_some_iff_findIdx_eq.1 hfind).1
      have hmem : ∃ p ∈ positions, p.frameNumber = flickFrame := by
        obtain ⟨hlt, hp, -⟩ := List.findIdx?_eq_some_iff_getElem.1 hfind
        exact ⟨positions[i], List.getElem_mem hlt, by simpa using hp⟩
      by_cases hlen : positions.length ≤ i + lookAheadFrames
      · simp only [if_pos hlen, Option.map_none', true_iff]
        exact Or.inr ⟨i, rfl, by omega⟩
      · simp only [if_neg hlen, Option.map_some']
        constructor
        · intro h
          exact absurd h (Option.some_ne_none _)
        · rintro (hall | ⟨j, hj, hjlen⟩)
          · obtain ⟨p, hp, hpf⟩ := hmem
            exact absurd hpf (hall p hp)
          · rw [Option.some_inj] at hj
            omega

/-- C10: the two successive definitions of `getFlickStats` in the class
body of `CrosshairMetrics` are extensionally equal: for every movement
sequence and velocity threshold, the shadowed first definition and the
effective second definition return identical results. -/
theorem getFlickStats_shadowing_equiv (movements : List Movement)
    (velocityThreshold : ℝ) :
    getFlickStatsShadowed movements velocityThreshold =
      getFlickStats movements velocityThreshold := rfl

/-- C6: flick detection is antitone in the velocity threshold — every
flick detected at threshold `t` is detected at any threshold `t' ≤ t`. -/
theorem detectFlicks_mono (movements : List Movement) (t t' : ℝ)
    (h : t' ≤ t) (f : Flick) (hf : f ∈ detectFlicks movements t) :
    f ∈ detectFlicks movements t' := by
  induction movements with
  | nil => simp [detectFlicks] at hf
  | cons m rest ih =>
      rw [detectFlicks] at hf ⊢
      rcases List.mem_append.1 hf with h1 | h2
      · have hv : m.velocity > t := by
          by_contra hc
          rw [if_neg hc] at h1
          exact absurd h1 (List.not_mem_nil f)
        have hv' : m.velocity > t' := lt_of_le_of_lt h hv
        rw [if_pos hv] at h1
        exact List.mem_append.2 (Or.inl (by rw [if_pos hv']; exact h1))
      · exact List.mem_append.2 (Or.inr (ih h2))

/-- Witness for C6 at the concrete input `[movC]`, thresholds 2000 ≥ 1000. -/
theorem detectFlicks_mono_witness : flickC ∈ detectFlicks [movC] 1000 :=
  detectFlicks_mono [movC] 2000 1000 (by norm_num) flickC
    (by norm_num [detectFlicks, flickOf, movC, flickC])

/-- C8: every derived movement has finite velocity ≥ 0 (a real number);
the velocity is 0 whenever the pair's `timeDiff` is ≤ 0 and equals
`distance / timeDiff` otherwise, so the derivation never divides by a
non-positive time delta. -/
theorem velocity_safe (positions : List Position) (m : Movement)
    (hm : m ∈ calculateMovements positions) :
    0 ≤ m.velocity ∧ (m.timeDiff ≤ 0 → m.velocity = 0) ∧
      (0 < m.timeDiff → m.velocity = m.distance / m.timeDiff) := by
  obtain ⟨p, q, rfl⟩ := mem_calculateMovements hm
  simp only [mkMovement]
  by_cases ht : 0 < q.timestamp - p.timestamp
  · rw [if_pos ht]
    refine ⟨div_nonneg (Real.sqrt_nonneg _) ht.le, fun hle => ?_, fun _ => rfl⟩
    exact absurd ht (not_lt.2 hle)
  · rw [if_neg ht]
    exact ⟨le_refl 0, fun _ => rfl, fun hlt => absurd hlt ht⟩

/-- Witness for C8 at the concrete pair `posA, posB`. -/
theorem velocity_safe_witness :
    0 ≤ (mkMovement posA posB).velocity ∧
      ((mkMovement posA posB).timeDiff ≤ 0 →
        (mkMovement posA posB).velocity = 0) ∧
      (0 < (mkMovement posA posB).timeDiff →
        (mkMovement posA posB).velocity =
          (mkMovement posA posB).distance / (mkMovement posA posB).timeDiff) :=
  velocity_safe [posA, posB] (mkMovement posA posB)
    (by simp [calculateMovements])

/-- C9: `getSummary` on an empty position sequence returns (without any
fault — the model is total) the summary whose counts and statistics are
all zero. -/
theorem getSummary_empty :
    getSummary [] =
      { totalFrames := 0, totalDistance := 0, averageVelocity := 0,
        maxVelocity := 0, smoothness := 0,
        flicks := { count := 0, averageDistance := 0, averageVelocity := 0,
                    maxDistance := 0, maxVelocity := 0 },
        trackingSegmentCount := 0, totalTrackingDistance := 0 } := by
  simp [getSummary, calculateMovements, getFlickStats, detectFlicks,
    getTrackingSegments, trackingLoop, getTotalDistance, getAverageVelocity,
    getMaxVelocity, getSmoothness]

/-- If no movement satisfies the tracking condition, the tracking-segment
scan yields no segments. -/
theorem getTrackingSegments_eq_nil {thr : ℝ} {movements : List Movement}
    (h : ∀ m ∈ movements, ¬(m.velocity ≤ thr ∧ m.distance > 5)) :
    getTrackingSegments movements thr = [] := by
  rw [getTrackingSegments]
  induction movements with
  | nil => simp [trackingLoop]
  | cons m rest ih =>
      rw [trackingLoop, if_neg (h m (List.mem_cons_self m rest))]
      simpa [trackingLoop] using ih fun m' hm' => h m' (List.mem_cons_of_mem m hm')

/-- `√25 = 5`, the step distance of the constant-velocity scenario. -/
theorem sqrt25 : Real.sqrt 25 = 5 := by
  rw [show (25 : ℝ) = 5 ^ 2 by norm_num, Real.sqrt_sq (by norm_num : (0:ℝ) ≤ 5)]

/-- Every movement of the C1 scenario has distance exactly 5. -/
theorem c1_distance_eq_five :
    ∀ m ∈ calculateMovements c1Positions, m.distance = 5 := by
  intro m hm
  simp only [c1Positions, calculateMovements, List.mem_cons,
    List.not_mem_nil, or_false] at hm
  rcases hm with rfl|rfl|rfl|rfl|rfl|rfl|rfl|rfl|rfl <;>
    norm_num [mkMovement, sqrt25]

/-- The C1 scenario yields no tracking segments: every step's distance is
exactly 5, which fails the strict `distance > 5` tracking condition. -/
theorem c1_segments_nil :
    getTrackingSegments (calculateMovements c1Positions) 500 = [] := by
  refine getTrackingSegments_eq_nil fun m hm => ?_
  rintro ⟨-, hd⟩
  rw [c1_distance_eq_five m hm] at hd
  exact lt_irrefl 5 hd

/-- C1 counterexample: the C1 scenario does NOT yield exactly one tracking
segment — `getTrackingSegments` with the default threshold 500 returns no
segment at all (each 5px step fails the strict `distance > 5` condition). -/
theorem trackingScenario_not_one_segment :
    (getTrackingSegments (calculateMovements c1Positions) 500).length ≠ 1 := by
  rw [c1_segments_nil]
  simp

/-- C1 amended: on the C1 scenario (10 positions 5px apart every 0.02s,
velocity 250 px/s), `getTrackingSegments` with threshold 500 returns no
tracking segments, because each movement's distance is exactly 5px and the
tracking condition requires `distance > 5` strictly. -/
theorem trackingScenario_no_segments :
    getTrackingSegments (calculateMovements c1Positions) 500 = [] :=
  c1_segments_nil

/-- C3 counterexample: on `c3Positions` with flick frame 0 and look-ahead
2, the window has a step with distance < 2 at timestamp offset 0, yet the
returned `stabilizationTime` is the window's total elapsed time 1, not 0:
the Python truthiness test `stabilizationTime if stabilizationTime else ...`
discards a zero offset. -/
theorem stabilization_counterexample :
    (analyzeFlickCorrections c3Positions 0 2).map
        (fun r => r.stabilizationTime) = some 1 ∧
      windowOf c3Positions 0 2 = some c3Positions ∧
      firstStabilization c3Positions = some 0 ∧
      (1 : ℝ) ≠ 0 := by
  have hwin : windowOf c3Positions 0 2 = some c3Positions := by
    simp [windowOf, c3Positions]
  have hstab : firstStabilization c3Positions = some 0 := by
    norm_num [firstStabilization, firstStabilizationFrom, stepDistance,
      c3Positions, Real.sqrt_zero]
  refine ⟨?_, hwin, hstab, by norm_num⟩
  rw [analyzeFlickCorrections, hwin, Option.map_some', Option.map_some']
  rw [stabilityRecord]
  simp only [hstab]
  norm_num [totalElapsed, c3Positions]

/-- C3 amended: for every non-absent result of `analyzeFlickCorrections`,
`stabilizationTime` is the timestamp offset of the first window step with
distance < 2 when that offset is nonzero; when the offset is zero (Python
treats a 0.0 as falsy) or no such step exists, it is the window's total
elapsed time. -/
theorem stabilizationTime_spec (positions : List Position) (flickFrame : ℤ)
    (lookAheadFrames : ℕ) (w : List Position) (r : StabilityRecord)
    (hw : windowOf positions flickFrame lookAheadFrames = some w)
    (hr : analyzeFlickCorrections positions flickFrame lookAheadFrames = some r) :
    r.stabilizationTime =
      (firstStabilization w).elim (totalElapsed w)
        (fun t => if t = 0 then totalElapsed w else t) := by
  rw [analyzeFlickCorrections, hw, Option.map_some', Option.some_inj] at hr
  subst hr
  rw [stabilityRecord]
  cases ht : firstStabilization w with
  | none => simp [ht]
  | some t => by_cases h0 : t = 0 <;> simp [ht, h0]

/-- Witness for C3's amended theorem at the concrete input `c3Positions`,
flick frame 0, look-ahead 2. -/
theorem stabilizationTime_spec_witness :
    (stabilityRecord c3Positions).stabilizationTime =
      (firstStabilization c3Positions).elim (totalElapsed c3Positions)
        (fun t => if t = 0 then totalElapsed c3Positions else t) :=
  stabilizationTime_spec c3Positions 0 2 c3Positions
    (stabilityRecord c3Positions)
    (by simp [windowOf, c3Positions])
    (by rw [analyzeFlickCorrections]; simp [windowOf, c3Positions])

/-- C2: on every diagnostics summary with `smoothness > 1000` and
`maxVelocity > 15000`, the recommendation section of `provideDiagnostics`
takes the `highSmoothness and highMaxVelocity` branch, which assigns only
`tooHighScore`; the subsequent `if tooLowScore >= 2` then reads the local
variable `tooLowScore` before any assignment, so the function raises
`UnboundLocalError` instead of reporting the too-high direction. -/
theorem highSmoothness_highVelocity_raises (d : Diagnostics)
    (h1 : d.smoothness > 1000) (h2 : d.maxVelocity > 15000) :
    provideDiagnosticsDecision d =
      Except.error
        "UnboundLocalError: local variable tooLowScore referenced before assignment" := by
  rw [provideDiagnosticsDecision]
  rw [if_neg ?_, if_pos ⟨h1, h2⟩]
  rintro ⟨-, hlow⟩
  linarith

/-- Witness for C2's theorem at the concrete record `c2Diagnostics`. -/
theorem highSmoothness_highVelocity_raises_witness :
    provideDiagnosticsDecision c2Diagnostics =
      Except.error
        "UnboundLocalError: local variable tooLowScore referenced before assignment" :=
  highSmoothness_highVelocity_raises c2Diagnostics
    (by norm_num [c2Diagnostics]) (by norm_num [c2Diagnostics])

/-- `atan2` of a vector pointing left and slightly up: just under `π`. -/
theorem atan2_up_left : atan2 (1 : ℝ) (-10) = Real.pi - Real.arctan (1 / 10) := by
  rw [atan2, if_neg (by norm_num), if_pos (by norm_num), if_pos (by norm_num)]
  rw [show ((1 : ℝ) / (-10)) = -(1 / 10) by norm_num, Real.arctan_neg]
  ring

/-- `atan2` of a vector pointing left and slightly down: just above `-π`. -/
theorem atan2_down_left : atan2 (-1 : ℝ) (-10) = Real.arctan (1 / 10) - Real.pi := by
  rw [atan2, if_neg (by norm_num), if_pos (by norm_num), if_neg (by norm_num)]
  rw [show ((-1 : ℝ) / (-10)) = 1 / 10 by norm_num]

/-- C4 counterexample: the reversal detector emits a correction for the
pair `m4a, m4b` (their raw `atan2` values straddle the ±π cut, so the
unwrapped difference `2π - 2·arctan(1/10)` exceeds π/2), yet their true
circular angular difference is `2·arctan(1/10) < π/2`, so the claim's
"angular difference > 90°" condition does NOT hold for this pair. -/
theorem reversal_counterexample :
    detectCorrections [m4a, m4b] =
        [{ frame := 1, correctionDistance := 7 }] ∧
      ¬claimCorrectionCond m4a m4b := by
  have hpi := Real.pi_pos
  have ha0 : 0 < Real.arctan (1 / 10) := by
    rw [show (0 : ℝ) = Real.arctan 0 by rw [Real.arctan_zero]]
    exact Real.arctan_strictMono (by norm_num)
  have ha4 : Real.arctan (1 / 10) < Real.pi / 4 := by
    rw [show Real.pi / 4 = Real.arctan 1 from Real.arctan_one.symm]
    exact Real.arctan_strictMono (by norm_num)
  have habs : |atan2 m4a.dy m4a.dx - atan2 m4b.dy m4b.dx| =
      2 * Real.pi - 2 * Real.arctan (1 / 10) := by
    have h1 : atan2 m4a.dy m4a.dx = Real.pi - Real.arctan (1 / 10) := by
      show atan2 (1 : ℝ) (-10) = _
      exact atan2_up_left
    have h2 : atan2 m4b.dy m4b.dx = Real.arctan (1 / 10) - Real.pi := by
      show atan2 (-1 : ℝ) (-10) = _
      exact atan2_down_left
    rw [h1, h2, abs_of_pos (by linarith)]
    ring
  have hcond : correctionCond m4a m4b := by
    refine ⟨by norm_num [m4a], ?_⟩
    rw [habs]
    linarith
  constructor
  · have hsingle : detectCorrections [m4b] = [] := rfl
    rw [detectCorrections, if_pos hcond, hsingle]
    simp [m4b]
  · rintro ⟨-, hang⟩
    rw [angularDifference, habs] at hang
    have hmin : min (2 * Real.pi - 2 * Real.arctan (1 / 10))
        (2 * Real.pi - (2 * Real.pi - 2 * Real.arctan (1 / 10))) ≤
          2 * Real.arctan (1 / 10) := by
      refine le_trans (min_le_right _ _) (le_of_eq ?_)
      ring
    linarith [lt_of_lt_of_le hang hmin]

/-- C4 amended: the reversal detector emits one correction event per
consecutive movement pair whose prior velocity exceeds 1500 px/s and whose
raw `atan2` direction values differ by more than π/2 in absolute value —
the difference of the two `(-π, π]` angles taken directly, without circular
wrapping, so it can exceed π for near-opposite signs around the ±π cut. -/
theorem detectCorrections_pairs (movements : List Movement) :
    detectCorrections movements =
      ((movements.zip movements.tail).filter fun p =>
          decide (correctionCond p.1 p.2)).map
        fun p => { frame := p.2.frameStart, correctionDistance := p.2.distance } := by
  induction movements with
  | nil => simp [detectCorrections]
  | cons m rest ih =>
      cases rest with
      | nil => simp [detectCorrections]
      | cons m2 rest2 =>
          rw [detectCorrections, ih]
          simp only [List.tail_cons, List.zip_cons_cons, List.filter_cons]
          by_cases hc : correctionCond m m2
          · simp [hc]
          · simp [hc]
